import Mathlib

/-!
Shallow embedding of the conversation-list screen of the PeerLink chat
client (`src/app/chat/page.tsx`): the data model, the reconciler
`createCombinedChatList`, the search filter `filteredChats`, and the
presentation selection logic of `ChatListPage` (other-participant
resolution, nickname precedence, unread badge, subtitle).
-/

namespace PeerLink

/-- Details stored for one participant inside a conversation
(`participantDetails` values in `page.tsx`). -/
structure ParticipantDetail where
  displayName : String
  avatar : Option String
deriving DecidableEq, Repr

/-- `lastMessage` of a conversation. `timestamp` is an abstract instant. -/
structure LastMessage where
  text : String
  timestamp : Nat
  deletedForEveryone : Bool
deriving DecidableEq, Repr

/-- A conversation summary as handled by `page.tsx`.  `participantDetails`
is a JS object keyed by user id, modelled as an association list in key
insertion order with later keys overwriting earlier ones (see `objGet`). -/
structure Conversation where
  chatId : String
  participants : List String
  participantDetails : List (String × ParticipantDetail)
  lastMessage : Option LastMessage
  unreadCount : Nat
  isPending : Bool
deriving DecidableEq, Repr

/-- The local user's profile (`userProfile` from the app context). -/
structure UserProfile where
  userId : String
  displayName : String
  avatar : Option String
deriving DecidableEq, Repr

/-- A paired contact (`pairedUsers` entries). `localDisplayName` is the
user-assigned nickname, absent when never set. -/
structure PairedUser where
  userId : String
  displayName : String
  localDisplayName : Option String
  avatar : Option String
deriving DecidableEq, Repr

/-- Lookup in a JS object literal modelled as an association list in key
insertion order: the value of the LAST binding of the key wins, `none`
when the key is absent (JS `obj[k]` yielding `undefined`). -/
def objGet (l : List (String × ParticipantDetail)) (k : String) :
    Option ParticipantDetail :=
  (l.reverse.find? (fun p => p.1 = k)).map (·.2)

/-- JS `a || b` on an optional string `a`: `b` when `a` is absent
(`undefined`) or the empty string (both falsy), else the string in `a`. -/
def jsOr (a : Option String) (b : String) : String :=
  match a with
  | none => b
  | some s => if s = "" then b else s

/-- JS `[x, y].sort()` for two strings: ascending lexicographic order,
the original order kept when they compare equal. -/
def sortedPairIds (a b : String) : List String :=
  if a ≤ b then [a, b] else [b, a]

/-- The canonical chat id synthesized for a pair of participant ids:
`sortedParticipantIds.join('_')` in `createCombinedChatList`. -/
def synthChatId (a b : String) : String :=
  String.intercalate "_" (sortedPairIds a b)

/-- The placeholder conversation synthesized by `createCombinedChatList`
for a paired contact `user` with no existing chat (the `newChat` object
literal, lines 71–89 of `page.tsx`). -/
def mkPlaceholder (profile : UserProfile) (user : PairedUser) : Conversation :=
  let userId := user.userId
  let sortedParticipantIds := sortedPairIds profile.userId userId
  { chatId := String.intercalate "_" sortedParticipantIds
    participants := sortedParticipantIds
    participantDetails :=
      [(profile.userId, ⟨profile.displayName, profile.avatar⟩),
       (userId, ⟨jsOr user.localDisplayName user.displayName, user.avatar⟩)]
    lastMessage := none
    unreadCount := 0
    isPending := true }

/-- The existence test of `createCombinedChatList`: does some chat in
`chats` have both `uid` and `selfId` among its participants
(`chats.find(...)` being truthy)? -/
def hasExistingChat (chats : List Conversation) (selfId uid : String) : Bool :=
  (chats.find? (fun chat =>
    chat.participants.contains uid && chat.participants.contains selfId)).isSome

/-- The reconciler `createCombinedChatList` from `page.tsx`: start from `[...chats]`,
then for each paired user push a placeholder unless a chat with both
participants already exists in `chats` (the `forEach` closure tests the
captured `chats`, not the growing `chatList`).  Without a profile the
function returns the empty list. -/
def createCombinedChatList (userProfile : Option UserProfile)
    (chats : List Conversation) (pairedUsers : List PairedUser) :
    List Conversation :=
  match userProfile with
  | none => []
  | some profile =>
    pairedUsers.foldl (fun chatList user =>
      if hasExistingChat chats profile.userId user.userId then chatList
      else chatList ++ [mkPlaceholder profile user]) chats

/-- JS `String.prototype.toLowerCase`, character-wise lowering. -/
def toLowerCase (s : String) : String :=
  ⟨s.data.map Char.toLower⟩

/-- Does the character list `q` start the character list `s`? -/
def leadsWith : List Char → List Char → Bool
  | [], _ => true
  | _ :: _, [] => false
  | c :: cs, d :: ds => c = d && leadsWith cs ds

/-- Does `q` occur as a contiguous run somewhere inside `s`? -/
def occursIn (q s : List Char) : Bool :=
  leadsWith q s ||
    match s with
    | [] => false
    | _ :: ds => occursIn q ds

/-- JS `s.includes(q)`: `q` occurs as a contiguous substring of `s`. -/
def strIncludes (s q : String) : Bool :=
  occursIn q.data s.data

/-- The predicate of the `allChats.filter(...)` call (lines 110–121):
resolve the first participant id different from the local user's id
(JS `find` returning `undefined`, and the falsiness of the empty
string, both reject the chat), look its details up, and test whether the
stored display name contains the query, case-insensitively. -/
def chatMatchesQuery (userProfile : Option UserProfile)
    (chat : Conversation) (searchQuery : String) : Bool :=
  match userProfile with
  | none => false
  | some profile =>
    match chat.participants.find? (fun id => id ≠ profile.userId) with
    | none => false
    | some otherParticipantId =>
      if otherParticipantId = "" then false
      else
        match objGet chat.participantDetails otherParticipantId with
        | none => false
        | some otherParticipant =>
          strIncludes (toLowerCase otherParticipant.displayName)
            (toLowerCase searchQuery)

/-- The search filter `filteredChats` from `page.tsx`. -/
def filteredChats (userProfile : Option UserProfile)
    (allChats : List Conversation) (searchQuery : String) :
    List Conversation :=
  allChats.filter (fun chat => chatMatchesQuery userProfile chat searchQuery)

/-- The nickname-override chain of line 165:
`pairedUser?.localDisplayName || pairedUser?.displayName ||
otherParticipant.displayName`. -/
def resolveDisplayName (pairedUser : Option PairedUser) (stored : String) :
    String :=
  jsOr (pairedUser.bind (fun u => u.localDisplayName))
    (jsOr (pairedUser.map (fun u => u.displayName)) stored)

/-- The unread badge of lines 184–188: no badge when `unreadCount` is
falsy (`0`), the text `"9+"` when the count exceeds `9`, the decimal
rendering of the count otherwise. -/
def renderBadge (unreadCount : Nat) : Option String :=
  if unreadCount ≠ 0 then
    some (if 9 < unreadCount then "9+" else toString unreadCount)
  else none

/-- The subtitle of lines 200–211: pending chats show a fixed invitation
prompt; a deleted last message shows a fixed redaction notice; otherwise
the stored text, or a fixed no-messages notice. -/
def renderSubtitle (chat : Conversation) : String :=
  if chat.isPending then "Start a conversation"
  else
    match chat.lastMessage with
    | some m => if m.deletedForEveryone then "This message was deleted" else m.text
    | none => "No messages yet"

/-- One rendered row of the chat list. -/
structure RenderedItem where
  chatId : String
  displayName : String
  badge : Option String
  subtitle : String
deriving DecidableEq, Repr

/-- The per-chat rendering of `filteredChats.map(...)` (lines 155–216):
`none` models the `return null` guards (no profile, no other
participant id, or no details for it); otherwise the row with the
nickname-resolved name, the badge and the subtitle. -/
def renderEntry (userProfile : Option UserProfile)
    (pairedUsers : List PairedUser) (chat : Conversation) :
    Option RenderedItem :=
  match userProfile with
  | none => none
  | some profile =>
    match chat.participants.find? (fun id => id ≠ profile.userId) with
    | none => none
    | some otherParticipantId =>
      if otherParticipantId = "" then none
      else
        match objGet chat.participantDetails otherParticipantId with
        | none => none
        | some otherParticipant =>
          some
            { chatId := chat.chatId
              displayName :=
                resolveDisplayName
                  (pairedUsers.find? (fun u => u.userId = otherParticipantId))
                  otherParticipant.displayName
              badge := renderBadge chat.unreadCount
              subtitle := renderSubtitle chat }

/-- The list of rendered rows: the filtered chats mapped through
`renderEntry`, dropping the `null` rows. -/
def renderedList (userProfile : Option UserProfile)
    (pairedUsers : List PairedUser) (chats : List Conversation)
    (searchQuery : String) : List RenderedItem :=
  (filteredChats userProfile chats searchQuery).filterMap
    (renderEntry userProfile pairedUsers)

/-- The unordered participant pair of a conversation, as a finite set. -/
def pairSet (chat : Conversation) : Finset String :=
  chat.participants.toFinset

/-- The placeholders appended by one reconciliation pass, in paired-user
order: one for each paired user with no existing chat. -/
def placeholdersFor (profile : UserProfile) (chats : List Conversation)
    (pairedUsers : List PairedUser) : List Conversation :=
  (pairedUsers.filter
    (fun user => ! hasExistingChat chats profile.userId user.userId)).map
    (mkPlaceholder profile)

/-! ## The substring test really is substring containment -/

/-- Leading-match characterization: `leadsWith q s` holds exactly when
`s` extends `q`. -/
lemma leadsWith_iff (q : List Char) : ∀ s : List Char,
    leadsWith q s = true ↔ ∃ u, q ++ u = s := by
  induction q with
  | nil => intro s; simp [leadsWith]
  | cons c cs ih =>
    intro s
    cases s with
    | nil => simp [leadsWith]
    | cons d ds =>
      simp only [leadsWith, Bool.and_eq_true, decide_eq_true_eq, ih]
      constructor
      · rintro ⟨rfl, u, rfl⟩
        exact ⟨u, rfl⟩
      · rintro ⟨u, h⟩
        rw [List.cons_append] at h
        injection h with h1 h2
        exact ⟨h1, u, h2⟩

/-- Occurrence characterization: `occursIn q s` holds exactly when `q` is
a contiguous substring of `s`. -/
lemma occursIn_iff (q : List Char) : ∀ s : List Char,
    occursIn q s = true ↔ ∃ t u, t ++ q ++ u = s := by
  intro s
  induction s with
  | nil =>
    simp [occursIn, leadsWith_iff, List.append_eq_nil]
  | cons d ds ih =>
    rw [show occursIn q (d :: ds) = (leadsWith q (d :: ds) || occursIn q ds)
      from by simp [occursIn]]
    rw [Bool.or_eq_true, leadsWith_iff, ih]
    constructor
    · rintro (⟨u, h⟩ | ⟨t, u, h⟩)
      · exact ⟨[], u, h⟩
      · refine ⟨d :: t, u, ?_⟩
        rw [List.cons_append, List.cons_append, h]
    · rintro ⟨t, u, h⟩
      cases t with
      | nil => exact Or.inl ⟨u, by simpa using h⟩
      | cons d0 t0 =>
        rw [List.cons_append, List.cons_append] at h
        injection h with h1 h2
        exact Or.inr ⟨t0, u, h2⟩

/-- The JS `includes` model finds `q` exactly when `q`'s characters occur
contiguously inside `s`'s characters. -/
lemma strIncludes_iff (s q : String) :
    strIncludes s q = true ↔ ∃ t u, t ++ q.data ++ u = s.data :=
  occursIn_iff q.data s.data

/-! ## Basic characterizations of the reconciler -/

/-- Unfolding the `forEach`-style fold: starting from any accumulator, the
pass appends exactly the placeholders of the paired users without an
existing chat, in order. -/
lemma foldl_placeholders (profile : UserProfile) (chats : List Conversation)
    (pairedUsers : List PairedUser) (acc : List Conversation) :
    pairedUsers.foldl (fun chatList user =>
      if hasExistingChat chats profile.userId user.userId then chatList
      else chatList ++ [mkPlaceholder profile user]) acc =
    acc ++ (pairedUsers.filter
      (fun user => ! hasExistingChat chats profile.userId user.userId)).map
      (mkPlaceholder profile) := by
  induction pairedUsers generalizing acc with
  | nil => simp
  | cons u pus ih =>
    by_cases h : hasExistingChat chats profile.userId u.userId = true
    · simp [List.foldl_cons, List.filter_cons, h, ih]
    · simp [List.foldl_cons, List.filter_cons, h, ih]

/-- With a profile present, the reconciler's output is the input chats
followed by the synthesized placeholders. -/
lemma createCombinedChatList_some (profile : UserProfile)
    (chats : List Conversation) (pairedUsers : List PairedUser) :
    createCombinedChatList (some profile) chats pairedUsers =
      chats ++ placeholdersFor profile chats pairedUsers := by
  unfold createCombinedChatList placeholdersFor
  exact foldl_placeholders profile chats pairedUsers chats

/-- The unordered participant pair of a synthesized placeholder. -/
lemma pairSet_mkPlaceholder (profile : UserProfile) (user : PairedUser) :
    pairSet (mkPlaceholder profile user) =
      insert profile.userId {user.userId} := by
  unfold pairSet mkPlaceholder sortedPairIds
  by_cases h : profile.userId ≤ user.userId
  · simp [h]
  · simp only [h, if_false]
    simp [Finset.pair_comm]

/-- Two unordered pairs sharing their first element are equal only when
their second elements agree. -/
lemma pair_right_inj {a b c : String}
    (h : insert a ({b} : Finset String) = insert a {c}) : b = c := by
  by_cases hbc : b = c
  · exact hbc
  · exfalso
    have hb : b ∈ insert a ({c} : Finset String) := by
      rw [← h]; simp
    have hc : c ∈ insert a ({b} : Finset String) := by
      rw [h]; simp
    simp only [Finset.mem_insert, Finset.mem_singleton] at hb hc
    rcases hb with hb | hb
    · rcases hc with hc | hc
      · exact hbc (hb.trans hc.symm)
      · exact hbc hc.symm
    · exact hbc hb

/-- The existence test is exactly: some input chat has both ids among its
participants. -/
lemma hasExistingChat_iff (chats : List Conversation) (selfId uid : String) :
    hasExistingChat chats selfId uid = true ↔
      ∃ c ∈ chats, uid ∈ c.participants ∧ selfId ∈ c.participants := by
  unfold hasExistingChat
  rw [List.find?_isSome]
  simp

/-! ## Claims about the reconciler's shape -/

/-- C6: with a profile present, the reconciler's output is exactly the
real input conversations, unchanged and in their original relative order,
followed by the synthesized placeholders; every placeholder is pending
and appears after all real conversations. -/
theorem reconciler_two_phase_order (profile : UserProfile)
    (chats : List Conversation) (pairedUsers : List PairedUser) :
    createCombinedChatList (some profile) chats pairedUsers =
      chats ++ placeholdersFor profile chats pairedUsers ∧
    ∀ c ∈ placeholdersFor profile chats pairedUsers, c.isPending = true := by
  refine ⟨createCombinedChatList_some profile chats pairedUsers, ?_⟩
  intro c hc
  simp only [placeholdersFor, List.mem_map] at hc
  obtain ⟨u, _, rfl⟩ := hc
  rfl

/-- C7: chat-id synthesis is commutative: the id computed for the pair
given as (A, B) equals the id computed for (B, A). -/
theorem synthChatId_comm (a b : String) : synthChatId a b = synthChatId b a := by
  unfold synthChatId sortedPairIds
  by_cases hab : a ≤ b <;> by_cases hba : b ≤ a
  · rw [le_antisymm hab hba]
  · simp [hab, hba]
  · simp [hab, hba]
  · exact absurd (le_total a b) (by simp [hab, hba])

/-- C8: without a loaded profile the reconciler returns the empty list,
whatever the conversations and paired contacts are. -/
theorem reconciler_empty_without_profile (chats : List Conversation)
    (pairedUsers : List PairedUser) :
    createCombinedChatList none chats pairedUsers = [] := rfl

/-- C10: the search filter returns an order-preserving subsequence of its
input: every retained element is an unmodified element of the input, none
is duplicated, and relative order is kept (this is exactly the sublist
relation). -/
theorem filteredChats_sublist (userProfile : Option UserProfile)
    (allChats : List Conversation) (searchQuery : String) :
    List.Sublist (filteredChats userProfile allChats searchQuery) allChats :=
  List.filter_sublist allChats

/-- C3 (code behavior at the failing input): with a paired contact whose
`userId` equals `selfId` and no chat containing `selfId`, the reconciler
synthesizes a self-conversation whose two participant entries are equal,
instead of refusing. -/
theorem self_pairing_synthesizes_self_conversation :
    (createCombinedChatList (some ⟨"a", "Alice", none⟩) []
        [⟨"a", "Alice", none, none⟩]).map Conversation.participants =
      [["a", "a"]] := by
  rw [createCombinedChatList_some]
  simp [placeholdersFor, hasExistingChat, mkPlaceholder, sortedPairIds]

/-! ## Presentation: unread badge -/

/-- C9: for every rendered conversation row, the unread badge is absent
exactly when `unreadCount` is `0`; any count above `9` renders as the
`"9+"` sentinel and a count from `1` to `9` renders as its exact decimal
text; the underlying count is untouched (the badge is a pure function of
it).  Concretely, `12` renders as `"9+"`, `9` as `"9"`, and `0` shows no
badge. -/
theorem unread_badge_rendering (userProfile : Option UserProfile)
    (pairedUsers : List PairedUser) (chat : Conversation)
    (item : RenderedItem)
    (h : renderEntry userProfile pairedUsers chat = some item) :
    (item.badge = none ↔ chat.unreadCount = 0) ∧
    (9 < chat.unreadCount → item.badge = some "9+") ∧
    (0 < chat.unreadCount → chat.unreadCount ≤ 9 →
      item.badge = some (toString chat.unreadCount)) ∧
    renderBadge 12 = some "9+" ∧ renderBadge 9 = some "9" ∧
    renderBadge 0 = none := by
  have hb : item.badge = renderBadge chat.unreadCount := by
    unfold renderEntry at h
    split at h
    · exact Option.noConfusion h
    · split at h
      · exact Option.noConfusion h
      · split at h
        · exact Option.noConfusion h
        · split at h
          · exact Option.noConfusion h
          · injection h with h
            rw [← h]
  refine ⟨?_, ?_, ?_, rfl, rfl, rfl⟩
  · rw [hb]
    by_cases hn : chat.unreadCount = 0 <;> simp [renderBadge, hn]
  · intro hgt
    have hn : chat.unreadCount ≠ 0 := by omega
    rw [hb]
    simp [renderBadge, hn, hgt]
  · intro hpos hle
    have hn : chat.unreadCount ≠ 0 := by omega
    have hng : ¬ 9 < chat.unreadCount := by omega
    rw [hb]
    simp [renderBadge, hn, hng]

/-- Witness for C9 at a concrete rendered row with `unreadCount = 12`. -/
theorem unread_badge_rendering_witness :
    renderEntry (some ⟨"a", "Alice", none⟩) []
        ⟨"a_b", ["a", "b"],
          [("a", ⟨"Alice", none⟩), ("b", ⟨"Robert", none⟩)], none, 12, false⟩ =
      some ⟨"a_b", "Robert", some "9+", "No messages yet"⟩ ∧
    (⟨"a_b", "Robert", some "9+", "No messages yet"⟩ : RenderedItem).badge =
      some "9+" :=
  ⟨rfl,
   (unread_badge_rendering (some ⟨"a", "Alice", none⟩) []
      ⟨"a_b", ["a", "b"],
        [("a", ⟨"Alice", none⟩), ("b", ⟨"Robert", none⟩)], none, 12, false⟩
      ⟨"a_b", "Robert", some "9+", "No messages yet"⟩ rfl).2.1 (by decide)⟩

/-! ## Foreign conversations and the search filter -/

/-- C5 counterexample: a conversation whose participants do NOT include
the local user's id is not excluded: its first participant is treated as
the "other participant", so it passes the search filter unchanged and
produces a rendered row. -/
theorem foreign_conversation_not_excluded :
    "a" ∉ (⟨"b_c", ["b", "c"],
        [("b", ⟨"Bobby", none⟩), ("c", ⟨"Carol", none⟩)], none, 0, false⟩ :
        Conversation).participants ∧
    filteredChats (some ⟨"a", "Alice", none⟩)
        [⟨"b_c", ["b", "c"],
          [("b", ⟨"Bobby", none⟩), ("c", ⟨"Carol", none⟩)], none, 0, false⟩]
        "" =
      [⟨"b_c", ["b", "c"],
        [("b", ⟨"Bobby", none⟩), ("c", ⟨"Carol", none⟩)], none, 0, false⟩] ∧
    renderedList (some ⟨"a", "Alice", none⟩) []
        [⟨"b_c", ["b", "c"],
          [("b", ⟨"Bobby", none⟩), ("c", ⟨"Carol", none⟩)], none, 0, false⟩]
        "" =
      [⟨"b_c", "Bobby", none, "No messages yet"⟩] := by
  refine ⟨by decide, rfl, rfl⟩

/-- C5 amended: the code's actual exclusion guard: a conversation is
dropped from both the filtered and the rendered list when no participant
id differs from the local user's id (then no "other participant" can be
resolved); merely not containing `selfId` does not exclude it. -/
theorem all_self_participants_excluded (profile : UserProfile)
    (pairedUsers : List PairedUser) (chat : Conversation)
    (searchQuery : String) (chats : List Conversation)
    (h : ∀ x ∈ chat.participants, x = profile.userId) :
    chatMatchesQuery (some profile) chat searchQuery = false ∧
    chat ∉ filteredChats (some profile) chats searchQuery ∧
    renderEntry (some profile) pairedUsers chat = none := by
  have hf : chat.participants.find? (fun id => id ≠ profile.userId) = none := by
    rw [List.find?_eq_none]
    intro x hx
    simp [h x hx]
  have hmatch : chatMatchesQuery (some profile) chat searchQuery = false := by
    simp only [chatMatchesQuery]
    rw [hf]
  refine ⟨hmatch, ?_, ?_⟩
  · intro hmem
    rw [filteredChats, List.mem_filter, hmatch] at hmem
    exact absurd hmem.2 (by simp)
  · simp only [renderEntry]
    rw [hf]

/-- Witness for the amended C5 at a degenerate self-conversation. -/
theorem all_self_participants_excluded_witness :
    chatMatchesQuery (some ⟨"a", "Alice", none⟩)
        ⟨"a_a", ["a", "a"], [], none, 0, true⟩ "" = false ∧
    (⟨"a_a", ["a", "a"], [], none, 0, true⟩ : Conversation) ∉
      filteredChats (some ⟨"a", "Alice", none⟩) [] "" ∧
    renderEntry (some ⟨"a", "Alice", none⟩) []
        ⟨"a_a", ["a", "a"], [], none, 0, true⟩ = none :=
  all_self_participants_excluded ⟨"a", "Alice", none⟩ []
    ⟨"a_a", ["a", "a"], [], none, 0, true⟩ "" [] (by decide)

/-! ## Nickname precedence and the search filter -/

/-- C4 counterexample: the search filter does NOT use the nickname
precedence chain.  With a paired contact reported as "Robert" but
nicknamed "Bob", the precedence-resolved name is "Bob" (and that is what
the row renders), the query "bob" matches it case-insensitively, yet the
filter tests the stored `participantDetails` name "Robert" and drops the
conversation. -/
theorem filter_ignores_nickname_precedence :
    resolveDisplayName (some ⟨"b", "Robert", some "Bob", none⟩) "Robert" =
      "Bob" ∧
    strIncludes (toLowerCase "Bob") (toLowerCase "bob") = true ∧
    renderEntry (some ⟨"a", "Alice", none⟩)
        [⟨"b", "Robert", some "Bob", none⟩]
        ⟨"a_b", ["a", "b"],
          [("a", ⟨"Alice", none⟩), ("b", ⟨"Robert", none⟩)], none, 0, false⟩ =
      some ⟨"a_b", "Bob", none, "No messages yet"⟩ ∧
    chatMatchesQuery (some ⟨"a", "Alice", none⟩)
        ⟨"a_b", ["a", "b"],
          [("a", ⟨"Alice", none⟩), ("b", ⟨"Robert", none⟩)], none, 0, false⟩
        "bob" = false ∧
    filteredChats (some ⟨"a", "Alice", none⟩)
        [⟨"a_b", ["a", "b"],
          [("a", ⟨"Alice", none⟩), ("b", ⟨"Robert", none⟩)], none, 0, false⟩]
        "bob" = [] := by
  refine ⟨rfl, rfl, rfl, rfl, rfl⟩

/-- C4 amended: whenever the other participant resolves (a first
participant id differing from the local user's, non-empty, with stored
details), the filter's decision is exactly the case-insensitive substring
test of the query against the name stored in the conversation's
`participantDetails` — paired-contact nicknames are not consulted. -/
theorem filter_matches_stored_name (profile : UserProfile)
    (chat : Conversation) (searchQuery oid : String) (d : ParticipantDetail)
    (hfind : chat.participants.find? (fun id => id ≠ profile.userId) =
      some oid)
    (hne : oid ≠ "")
    (hget : objGet chat.participantDetails oid = some d) :
    chatMatchesQuery (some profile) chat searchQuery =
      strIncludes (toLowerCase d.displayName) (toLowerCase searchQuery) := by
  simp only [chatMatchesQuery]
  rw [hfind]
  simp only [if_neg hne]
  rw [hget]

/-- Witness for the amended C4: the filter keeps the chat for query "rob"
because the stored name "Robert" contains it. -/
theorem filter_matches_stored_name_witness :
    chatMatchesQuery (some ⟨"a", "Alice", none⟩)
        ⟨"a_b", ["a", "b"],
          [("a", ⟨"Alice", none⟩), ("b", ⟨"Robert", none⟩)], none, 0, false⟩
        "rob" =
      strIncludes (toLowerCase "Robert") (toLowerCase "rob") :=
  filter_matches_stored_name ⟨"a", "Alice", none⟩
    ⟨"a_b", ["a", "b"],
      [("a", ⟨"Alice", none⟩), ("b", ⟨"Robert", none⟩)], none, 0, false⟩
    "rob" "b" ⟨"Robert", none⟩ rfl (by decide) rfl

/-! ## De-duplication of unordered participant pairs -/

/-- If a conversation's unordered pair is `{a, b}`, both `a` and `b` are
among its participants. -/
lemma pairSet_eq_elim {c : Conversation} {a b : String}
    (h : pairSet c = insert a {b}) :
    a ∈ c.participants ∧ b ∈ c.participants := by
  constructor
  · have : a ∈ pairSet c := by rw [h]; simp
    exact List.mem_toFinset.mp this
  · have : b ∈ pairSet c := by rw [h]; simp
    exact List.mem_toFinset.mp this

/-- A real conversation never shares its unordered pair with a
placeholder synthesized in the same pass: the placeholder exists only
because no chat has both its participants. -/
lemma cross_pair_ne (profile : UserProfile) (chats : List Conversation)
    {u : PairedUser}
    (hu : hasExistingChat chats profile.userId u.userId = false)
    {c : Conversation} (hc : c ∈ chats) :
    pairSet c ≠ pairSet (mkPlaceholder profile u) := by
  rw [pairSet_mkPlaceholder]
  intro heq
  obtain ⟨hself, huid⟩ := pairSet_eq_elim heq
  have : hasExistingChat chats profile.userId u.userId = true :=
    (hasExistingChat_iff chats profile.userId u.userId).mpr ⟨c, hc, huid, hself⟩
  rw [hu] at this
  cases this

/-- C1: whenever the input conversations have pairwise distinct unordered
participant pairs (a Conversation-collection invariant) and the paired
contacts carry no duplicate `userId`, the reconciler's output contains no
two entries with equal unordered participant pairs. -/
theorem reconciler_no_duplicate_pairs (userProfile : Option UserProfile)
    (chats : List Conversation) (pairedUsers : List PairedUser)
    (hchats : chats.Pairwise (fun c d => pairSet c ≠ pairSet d))
    (hpus : (pairedUsers.map PairedUser.userId).Nodup) :
    (createCombinedChatList userProfile chats pairedUsers).Pairwise
      (fun c d => pairSet c ≠ pairSet d) := by
  cases userProfile with
  | none => exact List.Pairwise.nil
  | some profile =>
    rw [createCombinedChatList_some, List.pairwise_append]
    refine ⟨hchats, ?_, ?_⟩
    · unfold placeholdersFor
      rw [List.pairwise_map]
      have hpw : pairedUsers.Pairwise (fun a b => a.userId ≠ b.userId) :=
        List.pairwise_map.mp hpus
      have hfil : (pairedUsers.filter
          (fun u => ! hasExistingChat chats profile.userId u.userId)).Pairwise
          (fun a b => a.userId ≠ b.userId) :=
        hpw.sublist (List.filter_sublist pairedUsers)
      refine hfil.imp ?_
      intro a b hne heq
      rw [pairSet_mkPlaceholder, pairSet_mkPlaceholder] at heq
      exact hne (pair_right_inj heq)
    · intro c hc pl hpl
      unfold placeholdersFor at hpl
      rw [List.mem_map] at hpl
      obtain ⟨u, hu, rfl⟩ := hpl
      rw [List.mem_filter] at hu
      have hfalse : hasExistingChat chats profile.userId u.userId = false := by
        have h2 := hu.2
        simp only [Bool.not_eq_true'] at h2
        exact h2
      exact cross_pair_ne profile chats hfalse hc

/-! ## Exactly-one-placeholder synthesis -/

/-- In a duplicate-free list, filtering by a predicate that holds exactly
at one member returns that member alone. -/
lemma filter_eq_singleton_of_nodup {α : Type _} {l : List α} {a : α}
    {p : α → Bool} (hnd : l.Nodup) (ha : a ∈ l)
    (hp : ∀ x ∈ l, p x = true ↔ x = a) : l.filter p = [a] := by
  induction l with
  | nil => cases ha
  | cons x xs ih =>
    rw [List.filter_cons]
    rcases List.mem_cons.mp ha with rfl | hxs
    · have hpx : p a = true := (hp a (List.mem_cons_self a xs)).mpr rfl
      rw [if_pos hpx]
      have hxs0 : xs.filter p = [] := by
        rw [List.filter_eq_nil_iff]
        intro y hy hpy
        have hya : y = a := (hp y (List.mem_cons_of_mem a hy)).mp hpy
        exact (List.nodup_cons.mp hnd).1 (hya ▸ hy)
      rw [hxs0]
    · have hx : x ≠ a := by
        rintro rfl
        exact (List.nodup_cons.mp hnd).1 hxs
      have hpx : ¬ p x = true := fun hpx =>
        hx ((hp x (List.mem_cons_self x xs)).mp hpx)
      rw [if_neg hpx]
      exact ih (List.nodup_cons.mp hnd).2 hxs
        (fun y hy => hp y (List.mem_cons_of_mem x hy))

/-- C2: for a paired contact `C` (no duplicate contact ids, real input
conversations) with no input conversation containing both `selfId` and
`C.userId`, the output contains exactly one entry whose unordered pair is
`{selfId, C.userId}` — the synthesized placeholder, whose participants
are the sorted pair, whose chat id is the sorted pair joined by `"_"`,
pending, with zero unread count and no last message; and when such a
conversation exists, no pending entry with that pair is ever emitted. -/
theorem placeholder_synthesis (profile : UserProfile)
    (chats : List Conversation) (pairedUsers : List PairedUser)
    (contact : PairedUser)
    (hnodup : (pairedUsers.map PairedUser.userId).Nodup)
    (hmem : contact ∈ pairedUsers)
    (hreal : ∀ c ∈ chats, c.isPending = false) :
    (¬ (∃ c ∈ chats, contact.userId ∈ c.participants ∧
          profile.userId ∈ c.participants) →
      (createCombinedChatList (some profile) chats pairedUsers).filter
          (fun c => pairSet c = insert profile.userId {contact.userId}) =
        [mkPlaceholder profile contact] ∧
      (mkPlaceholder profile contact).participants =
        sortedPairIds profile.userId contact.userId ∧
      (mkPlaceholder profile contact).chatId =
        synthChatId profile.userId contact.userId ∧
      (mkPlaceholder profile contact).isPending = true ∧
      (mkPlaceholder profile contact).unreadCount = 0 ∧
      (mkPlaceholder profile contact).lastMessage = none) ∧
    ((∃ c ∈ chats, contact.userId ∈ c.participants ∧
          profile.userId ∈ c.participants) →
      ∀ c ∈ createCombinedChatList (some profile) chats pairedUsers,
        c.isPending = true →
          pairSet c ≠ insert profile.userId {contact.userId}) := by
  constructor
  · intro hno
    have hex : hasExistingChat chats profile.userId contact.userId = false := by
      cases hb : hasExistingChat chats profile.userId contact.userId
      · rfl
      · exact absurd ((hasExistingChat_iff chats profile.userId
          contact.userId).mp hb) hno
    refine ⟨?_, rfl, rfl, rfl, rfl, rfl⟩
    rw [createCombinedChatList_some, List.filter_append]
    have h1 : chats.filter
        (fun c => pairSet c = insert profile.userId {contact.userId}) = [] := by
      rw [List.filter_eq_nil_iff]
      intro c hc hpred
      simp only [decide_eq_true_eq] at hpred
      obtain ⟨hself, huid⟩ := pairSet_eq_elim hpred
      exact hno ⟨c, hc, huid, hself⟩
    rw [h1, List.nil_append]
    unfold placeholdersFor
    rw [List.filter_map]
    have hnd : pairedUsers.Nodup := List.Nodup.of_map _ hnodup
    have hinj : ∀ x ∈ pairedUsers, ∀ y ∈ pairedUsers,
        x.userId = y.userId → x = y :=
      (List.nodup_map_iff_inj_on hnd).mp hnodup
    have hsing : (pairedUsers.filter
        (fun u => ! hasExistingChat chats profile.userId u.userId)).filter
        ((fun c => decide
            (pairSet c = insert profile.userId {contact.userId})) ∘
          mkPlaceholder profile) = [contact] := by
      refine filter_eq_singleton_of_nodup
        (hnd.filter (fun u => ! hasExistingChat chats profile.userId u.userId))
        (List.mem_filter.mpr ⟨hmem, by simp [hex]⟩) ?_
      intro x hx
      rw [List.mem_filter] at hx
      constructor
      · intro hpx
        simp only [Function.comp_apply, decide_eq_true_eq,
          pairSet_mkPlaceholder] at hpx
        exact hinj x hx.1 contact hmem (pair_right_inj hpx)
      · rintro rfl
        simp [pairSet_mkPlaceholder]
    rw [hsing]
    rfl
  · intro hexists c hc hpend
    rw [createCombinedChatList_some] at hc
    rcases List.mem_append.mp hc with hc | hc
    · rw [hreal c hc] at hpend
      cases hpend
    · unfold placeholdersFor at hc
      rw [List.mem_map] at hc
      obtain ⟨u, hu, rfl⟩ := hc
      rw [List.mem_filter] at hu
      rw [pairSet_mkPlaceholder]
      intro heq
      have huid : u.userId = contact.userId := pair_right_inj heq
      have htrue : hasExistingChat chats profile.userId u.userId = true := by
        rw [huid]
        exact (hasExistingChat_iff chats profile.userId contact.userId).mpr
          hexists
      have h2 := hu.2
      rw [htrue] at h2
      cases h2

/-- Witness for C2 at a concrete contact with no existing conversation:
the output's sole entry with pair `{"a", "b"}` is the placeholder. -/
theorem placeholder_synthesis_witness :
    (createCombinedChatList (some ⟨"a", "Alice", none⟩) []
        [⟨"b", "Robert", some "Bob", none⟩]).filter
        (fun c => pairSet c = insert "a" {"b"}) =
      [mkPlaceholder ⟨"a", "Alice", none⟩ ⟨"b", "Robert", some "Bob", none⟩] :=
  ((placeholder_synthesis ⟨"a", "Alice", none⟩ []
      [⟨"b", "Robert", some "Bob", none⟩] ⟨"b", "Robert", some "Bob", none⟩
      (by decide) (by decide) (by simp)).1 (by simp)).1

/-- Witness for C1 at a concrete input: one real conversation and one
contact, yielding pairwise distinct pairs. -/
theorem reconciler_no_duplicate_pairs_witness :
    (createCombinedChatList (some ⟨"a", "Alice", none⟩)
        [⟨"a_b", ["a", "b"],
          [("a", ⟨"Alice", none⟩), ("b", ⟨"Robert", none⟩)], none, 0, false⟩]
        [⟨"c", "Carol", none, none⟩]).Pairwise
      (fun c d => pairSet c ≠ pairSet d) :=
  reconciler_no_duplicate_pairs (some ⟨"a", "Alice", none⟩)
    [⟨"a_b", ["a", "b"],
      [("a", ⟨"Alice", none⟩), ("b", ⟨"Robert", none⟩)], none, 0, false⟩]
    [⟨"c", "Carol", none, none⟩] (by simp) (by decide)

end PeerLink
